import Mathlib

/-!
Verification of the content-selection core of `src/main.py`, a daily
vocabulary-quiz and concept-rotation bot.  The embedding covers:

* `get_today_concept_index` (lines 122-132): the day-indexed concept
  rotation.  Calendar dates are modelled as integer day ordinals, so
  `days = today - start_day` matches
  `(date.today() - date.fromisoformat(start_date_iso)).days`.
  Python's floored `//` and `%` are `Int.fdiv` and `Int.fmod`; Python's
  `ZeroDivisionError` on `% n` with `n = 0` is modelled by returning `none`.

* `split_concepts` (lines 114-119): `re.split` on
  `SEP_PATTERN = ^\s*-{3,}\s*$` (MULTILINE) followed by strip-and-drop-empty.
  The pattern is anchored at a line start and must end at a line end, and the
  hyphen run cannot span a newline, so a match removes exactly the physical
  lines whose stripped content is a run of three or more hyphens (any
  adjacent whitespace a match may also absorb is removed by the subsequent
  `strip` in either case).  The split is therefore embedded line-wise.

* `load_quiz_data` (lines 65-88): the pandas cleaning pipeline.  A raw sheet
  row is a pair of optional cells; `dropna` drops rows with an absent cell,
  `str.strip` trims, empty fields are filtered out, and
  `drop_duplicates(subset=["Meaning"])` keeps the first row per meaning.
  The `len(values) < 2` guard (header plus no data rows) is the emptiness
  check on the list of data rows.

* `send_quiz` (lines 138-166): quiz assembly.  `df.sample`,
  `random.sample` and `random.shuffle` are modelled by oracle parameters
  (`sample`, `pickWrong`, `shuffle`) whose contracts appear as hypotheses of
  the theorems; `list(set(...))` is modelled by `List.dedup` (Python set
  iteration order is unspecified); sending a poll is modelled by returning
  the question.
-/

namespace LmsBot

/-! ## Strings: Python `str.strip` and line structure -/

/-- Python `str.strip()` on a character list: drop whitespace from the front,
then from the back. -/
def stripChars (l : List Char) : List Char :=
  List.rdropWhile Char.isWhitespace (List.dropWhile Char.isWhitespace l)

/-- Python `str.strip()` on a string. -/
def pyStrip (s : String) : String :=
  String.mk (stripChars s.data)

/-- Split a character list into physical lines at each newline character,
accumulating the current (reversed) line; models the line structure that
`re.MULTILINE` gives `^` and `$`. -/
def splitLinesAux : List Char → List Char → List (List Char)
  | [], acc => [acc.reverse]
  | c :: rest, acc =>
    if c = '\n' then acc.reverse :: splitLinesAux rest []
    else splitLinesAux rest (c :: acc)

/-- Physical lines of a string. -/
def pyLines (s : String) : List (List Char) :=
  splitLinesAux s.data []

/-! ## ConceptSplitter: `split_concepts` -/

/-- A physical line matched by `SEP_PATTERN = ^\s*-{3,}\s*$`
(src/main.py line 114): once stripped of surrounding whitespace it is a run
of three or more hyphens and nothing else. -/
def is_sep_line (line : List Char) : Bool :=
  let t := stripChars line
  decide (3 ≤ t.length) && t.all (fun c => c == '-')

/-- Embedding of `split_concepts(full_text)` (src/main.py lines 117-119):
`re.split(SEP_PATTERN, full_text)` removes the separator lines, and the
comprehension `[p.strip() for p in parts if p.strip()]` strips each part and
drops the empty ones. -/
def split_concepts (full_text : String) : List String :=
  let parts := ((pyLines full_text).splitOnP is_sep_line).map
    (List.intercalate ['\n'])
  ((parts.map stripChars).filter (fun p => !p.isEmpty)).map String.mk

/-! ## ConceptScheduler: `get_today_concept_index` -/

/-- Embedding of `get_today_concept_index(n, start_date_iso)`
(src/main.py lines 122-132).  `days = (today - sd).days` with dates as day
ordinals; `week = days // 7`, `day_in_week = days % 7`,
`base = (week // 2) * 7`, result `(base + day_in_week) % n`.  Python's
floored division is `Int.fdiv`/`Int.fmod`; `% n` raises `ZeroDivisionError`
exactly when `n = 0`, modelled as `none`. -/
def get_today_concept_index (n start_day today : Int) : Option Int :=
  let days := today - start_day
  let week := days.fdiv 7
  let day_in_week := days.fmod 7
  let base := (week.fdiv 2) * 7
  if n = 0 then none else some ((base + day_in_week).fmod n)

/-- Modelled from the claim C10's closed form: `((days div 14) * 7 +
days mod 7) mod n` with Python floored division, undefined for `n = 0`. -/
def index_closed_form (n days : Int) : Option Int :=
  if n = 0 then none else some ((days.fdiv 14 * 7 + days.fmod 7).fmod n)

/-! ## VocabularyTable normalization: `load_quiz_data` -/

/-- A vocabulary row: `(word, meaning)`. -/
abbrev Row := String × String

/-- Rows parsed from the raw sheet cells: `df.dropna(subset=["Word",
"Meaning"])` (src/main.py line 81) drops every row with an absent cell. -/
def parse_rows (values : List (Option String × Option String)) : List Row :=
  values.filterMap (fun v =>
    match v with
    | (some w, some m) => some (w, m)
    | _ => none)

/-- Both fields stripped: `df["Word"].astype(str).str.strip()` and likewise
for `Meaning` (src/main.py lines 82-83). -/
def trim_rows (l : List Row) : List Row :=
  l.map (fun r => (pyStrip r.1, pyStrip r.2))

/-- Rows whose stripped word or meaning is empty are dropped
(src/main.py lines 84-85). -/
def drop_blank_rows (l : List Row) : List Row :=
  (l.filter (fun r => r.1 != "")).filter (fun r => r.2 != "")

/-- Deduplication by meaning keeping the first surviving occurrence:
`df.drop_duplicates(subset=["Meaning"])` (src/main.py line 86).  `seen`
carries the meanings already kept. -/
def dropDuplicatesByMeaning (seen : List String) : List Row → List Row
  | [] => []
  | r :: rest =>
    if r.2 ∈ seen then dropDuplicatesByMeaning seen rest
    else r :: dropDuplicatesByMeaning (r.2 :: seen) rest

/-- The whole cleaning pipeline of `load_quiz_data` (src/main.py
lines 81-86). -/
def clean_rows (values : List (Option String × Option String)) : List Row :=
  dropDuplicatesByMeaning [] (drop_blank_rows (trim_rows (parse_rows values)))

/-- Embedding of `load_quiz_data()` (src/main.py lines 65-88).  The input is
the list of data rows (the sheet's `values[1:]`, each cell possibly absent);
the guard `if not values or len(values) < 2` — no data rows at all — is the
emptiness check, and raises `Exception("Google Sheet has no data.")`. -/
def load_quiz_data (values : List (Option String × Option String)) :
    Except String (List Row) :=
  if values.isEmpty then Except.error "Google Sheet has no data."
  else Except.ok (clean_rows values)

/-! ## QuizGenerator: `send_quiz` -/

/-- A quiz question as sent with `bot.send_poll` (src/main.py lines 160-166):
the prompt, the shuffled options, and `correct_option_id =
options.index(correct)`. -/
structure QuizQuestion where
  prompt : String
  options : List String
  correct_index : Nat
  deriving DecidableEq

/-- Requested questions per quiz, `QUIZ_COUNT = 5` (src/main.py line 30). -/
def QUIZ_COUNT : Nat := 5

/-- One iteration of the loop in `send_quiz` (src/main.py lines 146-166) for
a sampled `row`: build the distractor pool (distinct meanings of the full
table other than the correct one — `list(set(...))` modelled by
`List.dedup`, Python set order being unspecified), skip the row when the
pool has fewer than 3 members, otherwise draw 3 wrong choices
(`random.sample`, modelled by the oracle `pickWrong`), append the correct
meaning, shuffle (`random.shuffle`, modelled by the oracle `shuffle`), and
record the index of the correct meaning. -/
def mk_question (df : List Row) (row : Row)
    (pickWrong shuffle : Row → List String → List String) :
    Option QuizQuestion :=
  let correct := row.2
  let wrong_pool := ((df.filter (fun x => x.2 != correct)).map Prod.snd).dedup
  if wrong_pool.length < 3 then none
  else
    let wrong_choices := pickWrong row wrong_pool
    let options := shuffle row (wrong_choices ++ [correct])
    some ⟨"What is the meaning of '" ++ row.1 ++ "'?", options,
      options.indexOf correct⟩

/-- The questions emitted by `send_quiz` (src/main.py lines 138-166) given
the sampled rows (`df.sample(min(QUIZ_COUNT, len(df)))`, modelled by the
`sample` parameter): each sampled row yields a question unless skipped. -/
def send_quiz (df sample : List Row)
    (pickWrong shuffle : Row → List String → List String) :
    List QuizQuestion :=
  sample.filterMap (fun row => mk_question df row pickWrong shuffle)

/-! ## Concrete data for the witnesses -/

/-- Deterministic stand-in for `random.sample(pool, 3)`: the first three
pool members. -/
def pickFirst3 (_ : Row) (pool : List String) : List String :=
  pool.take 3

/-- Deterministic stand-in for `random.shuffle`: the identity permutation. -/
def shuffleId (_ : Row) (l : List String) : List String := l

/-- A four-entry vocabulary table with four distinct meanings. -/
def wdf : List Row := [("a", "1"), ("b", "2"), ("c", "3"), ("d", "4")]

/-- A three-entry table with only two distinct meanings. -/
def wdf3 : List Row := [("a", "1"), ("b", "2"), ("c", "1")]

/-- The question `mk_question wdf ("a", "1") pickFirst3 shuffleId` emits. -/
def wq0 : QuizQuestion :=
  ⟨"What is the meaning of 'a'?", ["2", "3", "4", "1"], 3⟩

/-- Raw sheet rows exercising every normalization step: an absent word, a
blank word, a blank meaning, and a duplicated meaning. -/
def wvalues : List (Option String × Option String) :=
  [(some " a ", some " m "), (none, some "x"), (some "b", some " m "),
   (some " ", some "y"), (some "c", some "")]

/-! ## Theorems about the scheduler -/

/-- C1: for every positive block count `n` and all day ordinals with
`today >= start_day`, `get_today_concept_index` is defined and returns an
index in `[0, n)`. -/
theorem c1_index_in_range (n sd t : Int) (hn : 0 < n) (ht : sd ≤ t) :
    ∃ i, get_today_concept_index n sd t = some i ∧ 0 ≤ i ∧ i < n := by
  simp only [get_today_concept_index]
  rw [if_neg hn.ne']
  exact ⟨_, rfl, Int.fmod_nonneg' _ hn, Int.fmod_lt_of_pos _ hn⟩

/-- C1 witness: instantiated at `n = 5`, `start_day = 0`, `today = 9`. -/
theorem c1_witness :
    ∃ i, get_today_concept_index 5 0 9 = some i ∧ 0 ≤ i ∧ i < 5 :=
  c1_index_in_range 5 0 9 (by decide) (by decide)

/-- C9: for every positive `n`, the index stays in `[0, n)` even when
`today` is before `start_day` (negative day count), because Python's `//`
and `%` are floored division. -/
theorem c9_negative_days_in_range (n sd t : Int) (hn : 0 < n) (ht : t < sd) :
    ∃ i, get_today_concept_index n sd t = some i ∧ 0 ≤ i ∧ i < n := by
  simp only [get_today_concept_index]
  rw [if_neg hn.ne']
  exact ⟨_, rfl, Int.fmod_nonneg' _ hn, Int.fmod_lt_of_pos _ hn⟩

/-- C9 witness: instantiated at `n = 5`, `start_day = 10`, `today = 3`
(day count `-7`). -/
theorem c9_witness :
    ∃ i, get_today_concept_index 5 10 3 = some i ∧ 0 ≤ i ∧ i < 5 :=
  c9_negative_days_in_range 5 10 3 (by decide) (by decide)

/-- C2: when `days` and `days + 7` lie in the same two-week pair, the index
for `days` equals the index for `days + 7`; in particular day counts `0` and
`7` both map to index `0` (for positive `n`). -/
theorem c2_two_week_repetition (n days : Int) (hn : 0 < n) (hd : 0 ≤ days)
    (hpair : (days.fdiv 7).fdiv 2 = ((days + 7).fdiv 7).fdiv 2) :
    get_today_concept_index n 0 days = get_today_concept_index n 0 (days + 7) ∧
    get_today_concept_index n 0 0 = some 0 ∧
    get_today_concept_index n 0 7 = some 0 := by
  have e1 : (7 : Int).fdiv 7 = 1 := by decide
  have e2 : (1 : Int).fdiv 2 = 0 := by decide
  have e3 : (7 : Int).fmod 7 = 0 := by decide
  have e4 : (0 : Int).fdiv 7 = 0 := by decide
  have e5 : (0 : Int).fdiv 2 = 0 := by decide
  have e6 : (0 : Int).fmod 7 = 0 := by decide
  have h7 : days.fmod 7 = (days + 7).fmod 7 := by
    rw [Int.fmod_eq_emod _ (by norm_num), Int.fmod_eq_emod _ (by norm_num)]
    omega
  refine ⟨?_, ?_, ?_⟩
  · simp only [get_today_concept_index, Int.sub_zero, if_neg hn.ne']
    rw [hpair, h7]
  · simp only [get_today_concept_index, Int.sub_zero, if_neg hn.ne', e4, e5, e6]
    norm_num
  · simp only [get_today_concept_index, Int.sub_zero, if_neg hn.ne', e1, e2, e3]
    norm_num

/-- C2 witness: instantiated at `n = 5`, `days = 0` (weeks 0 and 1 form the
first two-week pair). -/
theorem c2_witness :
    get_today_concept_index 5 0 0 = get_today_concept_index 5 0 (0 + 7) ∧
    get_today_concept_index 5 0 0 = some 0 ∧
    get_today_concept_index 5 0 7 = some 0 :=
  c2_two_week_repetition 5 0 (by decide) (by decide) (by decide)

/-- C4 counterexample: for `n = -5` (so `n ≤ 0`), start day `0` and today `3`,
the computation returns an index (`some (-2)`) instead of failing, refuting
the claim that every non-positive `n` fails. -/
theorem c4_counterexample : get_today_concept_index (-5) 0 3 = some (-2) := by
  decide

/-- C4 amended: the index computation fails exactly when `n = 0` (Python's
`ZeroDivisionError` on `% 0`); for `n < 0` it returns a value rather than
failing. -/
theorem c4_failure_iff_zero (n sd t : Int) :
    get_today_concept_index n sd t = none ↔ n = 0 := by
  by_cases h : n = 0 <;> simp [get_today_concept_index, h]

/-- C10: for nonnegative day counts and positive `n`, the staged
week/base computation equals the closed form
`((days div 14) * 7 + days mod 7) mod n`. -/
theorem c10_closed_form_refinement (n days : Int) (hn : 0 < n) (hd : 0 ≤ days) :
    get_today_concept_index n 0 days = index_closed_form n days := by
  have key : (days.fdiv 7).fdiv 2 = days.fdiv 14 := by
    rw [Int.fdiv_eq_ediv days (by norm_num : (0 : Int) ≤ 7)]
    rw [Int.fdiv_eq_ediv (days / 7) (by norm_num : (0 : Int) ≤ 2)]
    rw [Int.fdiv_eq_ediv days (by norm_num : (0 : Int) ≤ 14)]
    omega
  simp only [get_today_concept_index, index_closed_form, Int.sub_zero, key]

/-- C10 witness: instantiated at `n = 3`, `days = 20`. -/
theorem c10_witness :
    get_today_concept_index 3 0 20 = index_closed_form 3 20 :=
  c10_closed_form_refinement 3 20 (by decide) (by decide)

/-! ## Theorems about stripping and the splitter -/

/-- A prefix of a list that `dropWhile` leaves unchanged is itself left
unchanged by `dropWhile`. -/
theorem dropWhile_eq_self_of_prefix {p : Char → Bool} {l₁ l₂ : List Char}
    (h2 : List.dropWhile p l₂ = l₂) (hpre : l₁ <+: l₂) :
    List.dropWhile p l₁ = l₁ := by
  cases l₁ with
  | nil => rfl
  | cons a t =>
    obtain ⟨r, rfl⟩ := hpre
    rw [List.cons_append, List.dropWhile_cons] at h2
    rw [List.dropWhile_cons]
    by_cases hpa : p a
    · exfalso
      rw [if_pos hpa] at h2
      have hle := (List.dropWhile_sublist p (l := t ++ r)).length_le
      rw [h2] at hle
      simp at hle
    · rw [if_neg hpa]

/-- Stripping is idempotent: a stripped character list has no leading or
trailing whitespace left. -/
theorem stripChars_idem (l : List Char) :
    stripChars (stripChars l) = stripChars l := by
  have hdw : List.dropWhile Char.isWhitespace (stripChars l) = stripChars l :=
    dropWhile_eq_self_of_prefix (List.dropWhile_idempotent _ _)
      (List.rdropWhile_prefix _ _)
  calc stripChars (stripChars l)
      = List.rdropWhile Char.isWhitespace
          (List.dropWhile Char.isWhitespace (stripChars l)) := rfl
    _ = List.rdropWhile Char.isWhitespace (stripChars l) := by rw [hdw]
    _ = stripChars l := List.rdropWhile_idempotent _ _

/-- Python-level strip is idempotent. -/
theorem pyStrip_idem (s : String) : pyStrip (pyStrip s) = pyStrip s :=
  congrArg String.mk (stripChars_idem s.data)

/-- C5: the splitter is total by construction and every segment it returns is
stripped and non-empty; moreover the spec's three examples hold: the
three-or-more-hyphen lines split `"A\n---\nB\n----\nC"` into
`["A", "B", "C"]`, the empty string yields no segments, and a line of only
two hyphens does not split. -/
theorem c5_split_concepts_spec :
    (∀ text : String, ∀ s ∈ split_concepts text, pyStrip s = s ∧ s ≠ "") ∧
    split_concepts "A\n---\nB\n----\nC" = ["A", "B", "C"] ∧
    split_concepts "" = [] ∧
    split_concepts "A\n--\nB" = ["A\n--\nB"] := by
  refine ⟨?_, by decide, by decide, by decide⟩
  intro text s hs
  simp only [split_concepts, List.mem_map, List.mem_filter] at hs
  obtain ⟨p, ⟨hp, hne⟩, rfl⟩ := hs
  obtain ⟨a, hsrc, rfl⟩ := hp
  constructor
  · exact congrArg String.mk (stripChars_idem a)
  · intro habs
    have h0 : stripChars a = [] := congrArg String.data habs
    rw [h0] at hne
    simp at hne

/-! ## Theorems about normalization -/

/-- Deduplication only removes rows: the result is a sublist of the input
(first surviving occurrences, in original order). -/
theorem dropDuplicatesByMeaning_sublist (seen : List String) (l : List Row) :
    (dropDuplicatesByMeaning seen l).Sublist l := by
  induction l generalizing seen with
  | nil => simp [dropDuplicatesByMeaning]
  | cons a t ih =>
    simp only [dropDuplicatesByMeaning]
    by_cases hs : a.2 ∈ seen
    · rw [if_pos hs]
      exact (ih seen).cons a
    · rw [if_neg hs]
      exact (ih (a.2 :: seen)).cons₂ a

/-- The meanings surviving deduplication are pairwise distinct and avoid the
already-seen meanings. -/
theorem dropDuplicatesByMeaning_meanings_nodup (seen : List String)
    (l : List Row) :
    ((dropDuplicatesByMeaning seen l).map Prod.snd).Nodup ∧
    ∀ x ∈ (dropDuplicatesByMeaning seen l).map Prod.snd, x ∉ seen := by
  induction l generalizing seen with
  | nil => simp [dropDuplicatesByMeaning]
  | cons a t ih =>
    simp only [dropDuplicatesByMeaning]
    by_cases hs : a.2 ∈ seen
    · rw [if_pos hs]
      exact ih seen
    · rw [if_neg hs]
      obtain ⟨ihn, ihs⟩ := ih (a.2 :: seen)
      constructor
      · simp only [List.map_cons, List.nodup_cons]
        exact ⟨fun hmem => (ihs a.2 hmem) (List.mem_cons_self _ _), ihn⟩
      · intro x hx
        simp only [List.map_cons, List.mem_cons] at hx
        rcases hx with rfl | hx
        · exact hs
        · exact fun hxs => (ihs x hx) (List.mem_cons_of_mem _ hxs)

/-- C6: `load_quiz_data` fails with the no-data error on an empty row list;
on a non-empty one it returns the cleaned table, whose entries all have
non-empty, strip-idempotent word and meaning fields, whose meanings are
pairwise distinct, and which is a sublist (original order, first occurrence
kept) of the trimmed-and-filtered rows. -/
theorem c6_normalize_spec :
    load_quiz_data [] = Except.error "Google Sheet has no data." ∧
    ∀ values : List (Option String × Option String), values ≠ [] →
      ∃ out, load_quiz_data values = Except.ok out ∧
        (∀ e ∈ out,
          e.1 ≠ "" ∧ e.2 ≠ "" ∧ pyStrip e.1 = e.1 ∧ pyStrip e.2 = e.2) ∧
        (out.map Prod.snd).Nodup ∧
        out.Sublist (drop_blank_rows (trim_rows (parse_rows values))) := by
  constructor
  · rfl
  · intro values hne
    refine ⟨clean_rows values, ?_, ?_, ?_, ?_⟩
    · obtain ⟨v, vs, rfl⟩ := List.exists_cons_of_ne_nil hne
      rfl
    · intro e he
      have he2 := (dropDuplicatesByMeaning_sublist [] _).subset he
      simp only [drop_blank_rows, List.mem_filter, bne_iff_ne, ne_eq] at he2
      obtain ⟨⟨hmem, hw⟩, hm⟩ := he2
      simp only [trim_rows, List.mem_map] at hmem
      obtain ⟨r, hr, rfl⟩ := hmem
      exact ⟨hw, hm, pyStrip_idem r.1, pyStrip_idem r.2⟩
    · exact (dropDuplicatesByMeaning_meanings_nodup [] _).1
    · exact dropDuplicatesByMeaning_sublist [] _

/-- C6 witness: the sample rows exercise an absent word, blank fields after
trimming and a duplicated meaning. -/
theorem c6_witness :
    ∃ out, load_quiz_data wvalues = Except.ok out ∧
      (∀ e ∈ out,
        e.1 ≠ "" ∧ e.2 ≠ "" ∧ pyStrip e.1 = e.1 ∧ pyStrip e.2 = e.2) ∧
      (out.map Prod.snd).Nodup ∧
      out.Sublist (drop_blank_rows (trim_rows (parse_rows wvalues))) :=
  c6_normalize_spec.2 wvalues (by decide)

/-! ## Theorems about the quiz generator -/

/-- Filtering away a present element strictly shrinks a list. -/
theorem length_filter_ne_lt {a : String} {l : List String} (h : a ∈ l) :
    (l.filter (fun x => x != a)).length < l.length := by
  induction l with
  | nil => cases h
  | cons b t ih =>
    rw [List.filter_cons]
    rcases List.mem_cons.mp h with rfl | hat
    · simp only [bne_self_eq_false, Bool.false_eq_true, if_false,
        List.length_cons]
      have hle := List.length_filter_le (fun x => x != a) t
      omega
    · by_cases hba : (b != a) = true
      · rw [if_pos hba]
        simp only [List.length_cons]
        have hlt := ih hat
        omega
      · rw [if_neg hba]
        simp only [List.length_cons]
        have hle := List.length_filter_le (fun x => x != a) t
        omega

/-- The distractor pool of a sampled table row has fewer members than the
table has distinct meanings. -/
theorem wrong_pool_short (df : List Row) (r : Row) (hrdf : r ∈ df) :
    (((df.filter (fun x => x.2 != r.2)).map Prod.snd).dedup).length <
      ((df.map Prod.snd).dedup).length := by
  have hpnd : (((df.filter (fun x => x.2 != r.2)).map Prod.snd).dedup).Nodup :=
    List.nodup_dedup _
  have hsub : ((df.filter (fun x => x.2 != r.2)).map Prod.snd).dedup ⊆
      ((df.map Prod.snd).dedup).filter (fun x => x != r.2) := by
    intro x hx
    rw [List.mem_dedup, List.mem_map] at hx
    obtain ⟨row, hrow, rfl⟩ := hx
    rw [List.mem_filter] at hrow
    rw [List.mem_filter]
    refine ⟨?_, hrow.2⟩
    rw [List.mem_dedup]
    exact List.mem_map_of_mem Prod.snd hrow.1
  have hle := (List.subperm_of_subset hpnd hsub).length_le
  have hcM : r.2 ∈ (df.map Prod.snd).dedup := by
    rw [List.mem_dedup]
    exact List.mem_map_of_mem Prod.snd hrdf
  have hlt := length_filter_ne_lt hcM
  omega

/-- C7: when the table has fewer than 4 distinct meanings, every sampled
candidate is skipped (its distractor pool has fewer than 3 members) and the
generator emits no questions. -/
theorem c7_few_meanings_empty (df sample : List Row)
    (pickWrong shuffle : Row → List String → List String)
    (hmem : ∀ r ∈ sample, r ∈ df)
    (hfew : ((df.map Prod.snd).dedup).length < 4) :
    send_quiz df sample pickWrong shuffle = [] := by
  rw [send_quiz, List.filterMap_eq_nil_iff]
  intro r hr
  have hpool := wrong_pool_short df r (hmem r hr)
  simp only [mk_question]
  rw [if_pos (by omega)]

/-- C7 witness: a table with two distinct meanings emits nothing. -/
theorem c7_witness : send_quiz wdf3 [("a", "1")] pickFirst3 shuffleId = [] :=
  c7_few_meanings_empty wdf3 [("a", "1")] pickFirst3 shuffleId (by decide)
    (by decide)

/-- Membership in the pool excludes the correct meaning. -/
theorem mem_wrong_pool_ne (df : List Row) (r : Row) (x : String)
    (hx : x ∈ ((df.filter (fun y => y.2 != r.2)).map Prod.snd).dedup) :
    x ≠ r.2 := by
  rw [List.mem_dedup, List.mem_map] at hx
  obtain ⟨row, hrow, rfl⟩ := hx
  rw [List.mem_filter] at hrow
  simpa using hrow.2

/-- C8: the generator never emits more than `min count |table|` questions
(one per sampled row, sampled without replacement), and in every emitted
question the correct meaning occurs exactly once among the options — it is
never also one of the three distractors. -/
theorem c8_bound_and_no_collision (df sample : List Row) (count : Nat)
    (pickWrong shuffle : Row → List String → List String)
    (hlen : sample.length = min count df.length)
    (hpick : ∀ r pool, 3 ≤ pool.length → pool.Nodup →
      ∀ x ∈ pickWrong r pool, x ∈ pool)
    (hshuf : ∀ r l, List.Perm (shuffle r l) l) :
    (send_quiz df sample pickWrong shuffle).length ≤ min count df.length ∧
    ∀ r ∈ sample, ∀ q, mk_question df r pickWrong shuffle = some q →
      q.options.count r.2 = 1 := by
  constructor
  · rw [send_quiz]
    calc (sample.filterMap
          (fun row => mk_question df row pickWrong shuffle)).length
        ≤ sample.length := List.length_filterMap_le _ _
      _ = min count df.length := hlen
  · intro r hr q hq
    simp only [mk_question] at hq
    by_cases hcond :
        (((df.filter (fun x => x.2 != r.2)).map Prod.snd).dedup).length < 3
    · rw [if_pos hcond] at hq
      cases hq
    · rw [if_neg hcond] at hq
      obtain rfl := (Option.some.injEq _ _).mp hq
      have hnd : (((df.filter (fun x => x.2 != r.2)).map Prod.snd).dedup).Nodup :=
        List.nodup_dedup _
      have hperm := hshuf r
        (pickWrong r (((df.filter (fun x => x.2 != r.2)).map Prod.snd).dedup)
          ++ [r.2])
      rw [hperm.count_eq, List.count_append]
      have h0 : (pickWrong r
          (((df.filter (fun x => x.2 != r.2)).map Prod.snd).dedup)).count r.2
          = 0 := by
        rw [List.count_eq_zero]
        intro hmem
        exact mem_wrong_pool_ne df r r.2
          (hpick r _ (Nat.le_of_not_lt hcond) hnd r.2 hmem) rfl
      rw [h0]
      simp

/-- C8 witness: the full four-row table sampled with `count = QUIZ_COUNT`,
checked on the question built from the first row. -/
theorem c8_witness :
    (send_quiz wdf wdf pickFirst3 shuffleId).length ≤
      min QUIZ_COUNT wdf.length ∧
    wq0.options.count "1" = 1 := by
  refine ⟨(c8_bound_and_no_collision wdf wdf QUIZ_COUNT pickFirst3 shuffleId
    (by decide) ?_ ?_).1, ?_⟩
  · intro r pool h3 hnd x hx
    exact List.mem_of_mem_take hx
  · intro r l
    exact List.Perm.refl l
  · exact (c8_bound_and_no_collision wdf wdf QUIZ_COUNT pickFirst3 shuffleId
      (by decide)
      (fun r pool h3 hnd x hx => List.mem_of_mem_take hx)
      (fun r l => List.Perm.refl l)).2 ("a", "1") (by decide) wq0 (by decide)

/-- C3: whenever `random.sample` returns 3 distinct members of the pool and
`random.shuffle` permutes its list, every question emitted by the generator
has exactly 4 pairwise-distinct options, `correct_index ∈ [0, 3]`, and the
option at `correct_index` is the sampled row's meaning. -/
theorem c3_question_wellformed (df sample : List Row)
    (pickWrong shuffle : Row → List String → List String)
    (hpick : ∀ r pool, 3 ≤ pool.length → pool.Nodup →
      (pickWrong r pool).length = 3 ∧ (pickWrong r pool).Nodup ∧
      ∀ x ∈ pickWrong r pool, x ∈ pool)
    (hshuf : ∀ r l, List.Perm (shuffle r l) l) :
    ∀ q ∈ send_quiz df sample pickWrong shuffle,
      q.options.length = 4 ∧ q.options.Nodup ∧ q.correct_index < 4 ∧
      ∃ r ∈ sample, mk_question df r pickWrong shuffle = some q ∧
        q.options.getD q.correct_index "" = r.2 := by
  intro q hq
  rw [send_quiz, List.mem_filterMap] at hq
  obtain ⟨r, hr, hmk⟩ := hq
  have hmk2 := hmk
  simp only [mk_question] at hmk2
  by_cases hcond :
      (((df.filter (fun x => x.2 != r.2)).map Prod.snd).dedup).length < 3
  · rw [if_pos hcond] at hmk2
    cases hmk2
  · rw [if_neg hcond] at hmk2
    obtain rfl := (Option.some.injEq _ _).mp hmk2
    have hnd : (((df.filter (fun x => x.2 != r.2)).map Prod.snd).dedup).Nodup :=
      List.nodup_dedup _
    obtain ⟨hl3, hnd3, hsub3⟩ := hpick r _ (Nat.le_of_not_lt hcond) hnd
    have hperm := hshuf r
      (pickWrong r (((df.filter (fun x => x.2 != r.2)).map Prod.snd).dedup)
        ++ [r.2])
    have hlen4 :
        (shuffle r (pickWrong r
          (((df.filter (fun x => x.2 != r.2)).map Prod.snd).dedup)
          ++ [r.2])).length = 4 := by
      rw [hperm.length_eq, List.length_append, hl3]
      rfl
    have hnotin : r.2 ∉ pickWrong r
        (((df.filter (fun x => x.2 != r.2)).map Prod.snd).dedup) :=
      fun hmem => mem_wrong_pool_ne df r r.2 (hsub3 r.2 hmem) rfl
    have hndopts :
        (shuffle r (pickWrong r
          (((df.filter (fun x => x.2 != r.2)).map Prod.snd).dedup)
          ++ [r.2])).Nodup := by
      rw [hperm.nodup_iff]
      rw [List.nodup_append]
      refine ⟨hnd3, List.nodup_singleton _, ?_⟩
      intro x hx hx1
      rw [List.mem_singleton] at hx1
      exact hnotin (hx1 ▸ hx)
    have hmemc : r.2 ∈ shuffle r (pickWrong r
        (((df.filter (fun x => x.2 != r.2)).map Prod.snd).dedup) ++ [r.2]) :=
      hperm.mem_iff.mpr (by simp)
    have hidx := List.indexOf_lt_length.mpr hmemc
    refine ⟨hlen4, hndopts, by rw [← hlen4]; exact hidx, r, hr, hmk, ?_⟩
    rw [List.getD_eq_getElem _ _ hidx]
    exact List.getElem_indexOf hidx

/-- C3 witness: the concrete question built from the four-meaning table. -/
theorem c3_witness :
    wq0.options.length = 4 ∧ wq0.options.Nodup ∧ wq0.correct_index < 4 ∧
    ∃ r ∈ [("a", "1")], mk_question wdf r pickFirst3 shuffleId = some wq0 ∧
      wq0.options.getD wq0.correct_index "" = r.2 :=
  c3_question_wellformed wdf [("a", "1")] pickFirst3 shuffleId
    (fun r pool h3 hnd =>
      ⟨by rw [pickFirst3, List.length_take]; omega,
       List.Nodup.sublist (List.take_sublist 3 pool) hnd,
       fun x hx => List.mem_of_mem_take hx⟩)
    (fun r l => List.Perm.refl l)
    wq0 (by decide)

end LmsBot
